import Mathlib

/-!
# Verification of the `react-offline-sync` SyncEngine

Shallow embedding of `src/core/SyncEngine.ts` (class `SyncEngine`) and the
relevant part of `src/react/useOfflineMutation.ts` / `src/types.ts`.

Modelling conventions:
* The persisted IndexedDB record under `QUEUE_KEY` is a `List RequestPayload`;
  a missing record is the empty list (the code defaults `old` to `[]`).
* `navigator.onLine` at the start of a pass is the `onLine` field of
  `EngineState`; a network drop during a `fetch` is a `FetchResult.throw`.
* `crypto.randomUUID()` and `Date.now()` are explicit inputs (`id`, `now`).
* Observable effects (listener notifications, fetch attempts, `onSuccess` /
  `onError` callback invocations, `setTimeout` scheduling) are recorded as an
  `Event` trace in program order.  `onSuccess`/`onError` events mean "the
  engine invokes the callback (when configured)".
* JS `async` control flow is sequenced exactly as the single-threaded
  microtask scheduler runs it.  In particular, on the retry path
  `handleRetry` is *not* awaited: it suspends at its first `await update`,
  the caller's `finally { notifyListeners() }` runs (emitting a `true`
  notification), and only then do `handleRetry`'s queue update, guard
  release and `setTimeout` happen.
* Machine numbers (`retryCount`, delays, HTTP statuses, timestamps) are
  `Nat`; none of the arithmetic in the source can overflow a JS number in
  any reachable scenario, and JS numbers are exact on these ranges.
* `response.status` is `Option Nat`: `none` models a mock response without a
  `status` field (`undefined`), for which both JS comparisons
  `undefined >= 400` and `undefined < 500` are `false`.
-/

namespace OfflineSync

/-- `RequestPayload` from `src/types.ts`: one pending mutation. -/
structure RequestPayload where
  id : String
  url : String
  method : String
  body : String
  headers : List (String × String)
  timestamp : Nat
  retryCount : Nat
deriving DecidableEq, Repr

/-- The argument of `addRequest`: `Omit<RequestPayload, "id" | "timestamp" | "retryCount">`. -/
structure NewRequest where
  url : String
  method : String
  body : String
  headers : List (String × String)
deriving DecidableEq, Repr

/-- A `fetch` `Response`, as far as the engine inspects it (`ok`, `status`,
`statusText`).  `status = none` models a response object with no `status`
field (as in the repository's own test mocks). -/
structure HttpResponse where
  ok : Bool
  status : Option Nat
  statusText : String
deriving DecidableEq, Repr

/-- Outcome of one `fetch` call: either the promise rejects with an error
carrying `message`, or it resolves to a response. -/
inductive FetchResult where
  | throw (message : String)
  | resp (r : HttpResponse)
deriving DecidableEq, Repr

/-- The environment of one drain pass: the configured `prepareHeaders`
behaviour (`none` = not configured; `some (.error m)` = the promise rejects
with an error whose message is `m`; `some (.ok hs)` = it resolves to `hs`)
and the network transport. -/
structure Env where
  prepare : Option (Except String (List (String × String)))
  transport : RequestPayload → FetchResult

/-- Observable events of the engine, in program order. -/
inductive Event where
  | notify (isSyncing : Bool)
  | attempt (r : RequestPayload) (headers : List (String × String))
  | onSuccess (r : RequestPayload)
  | onError (r : RequestPayload)
  | scheduleRetry (delay : Nat)
deriving DecidableEq, Repr

/-- In-process engine state plus the environment's reachability flag. -/
structure EngineState where
  isSyncing : Bool
  onLine : Bool
  queue : List RequestPayload
deriving DecidableEq, Repr

/-- JS `String.prototype.includes` on char lists: `needle` occurs
contiguously inside `hay`. -/
def listIncludes (needle : List Char) : List Char → Bool
  | [] => needle.isEmpty
  | c :: rest => needle.isPrefixOf (c :: rest) || listIncludes needle rest

/-- JS `hay.includes(needle)` on strings. -/
def strIncludes (hay needle : String) : Bool :=
  listIncludes needle.data hay.data

/-- JS `status >= bound` where `status` may be `undefined` (then `false`). -/
def jsGE (status : Option Nat) (bound : Nat) : Bool :=
  match status with
  | none => false
  | some v => bound ≤ v

/-- JS `status < bound` where `status` may be `undefined` (then `false`). -/
def jsLT (status : Option Nat) (bound : Nat) : Bool :=
  match status with
  | none => false
  | some v => v < bound

/-- JS template interpolation `${response.status}`: decimal digits, or the
string `"undefined"` when the field is absent. -/
def statusString : Option Nat → String
  | none => "undefined"
  | some n => Nat.repr n

/-- The default header object literal the engine starts the merge from. -/
def defaultHeaders : List (String × String) :=
  [("Content-Type", "application/json")]

/-- The JS spread `{"Content-Type": "application/json", ...req.headers,
...dynamicHeaders}`: keys of later operands shadow earlier ones. -/
def mergedHeaders (staticHeaders dynamicHeaders : List (String × String)) :
    List (String × String) :=
  defaultHeaders ++ staticHeaders ++ dynamicHeaders

/-- Property lookup in a JS object built from a key/value list where a later
binding of the same key overwrites an earlier one. -/
def jsLookup (kvs : List (String × String)) (k : String) : Option String :=
  match kvs with
  | [] => none
  | (k', v) :: rest =>
    match jsLookup rest k with
    | some v' => some v'
    | none => if k' = k then some v else none

/-- `this.config.prepareHeaders ? await this.config.prepareHeaders() : {}`
(lines 75–77): the resolved dynamic headers, or the thrown error. -/
def dynOf (env : Env) : Except String (List (String × String)) :=
  match env.prepare with
  | none => Except.ok []
  | some res => res

/-- The read-modify-write passed to `update` in `handleRetry`
(lines 142–151): bump the head's `retryCount` only when the persisted head
still has the attempted item's `id`.  (`(head.retryCount || 0) + 1` equals
`head.retryCount + 1` on `Nat`.) -/
def retryUpdate (req : RequestPayload) (old : List RequestPayload) :
    List RequestPayload :=
  match old with
  | [] => []
  | head :: rest =>
    if head.id = req.id then
      { head with retryCount := head.retryCount + 1 } :: rest
    else
      head :: rest

/-- Lines 154–155: `retryCount = req.retryCount + 1;
delay = Math.min(1000 * 2 ** retryCount, 30000)`. -/
def backoffDelay (req : RequestPayload) : Nat :=
  min (1000 * 2 ^ (req.retryCount + 1)) 30000

/-- `handleRetry` (lines 138–163): persist the guarded increment, release the
`isSyncing` guard, notify, and schedule a re-drain after the backoff delay.
(The `setTimeout` callback itself belongs to a later pass.) -/
def handleRetry (req : RequestPayload) (s : EngineState) :
    EngineState × List Event :=
  ({ s with queue := retryUpdate req s.queue, isSyncing := false },
   [Event.notify false, Event.scheduleRetry (backoffDelay req)])

/-- Result of the inner `try` block (lines 73–100) on the head item. -/
inductive InnerResult where
  | success (headers : List (String × String))
  | thrown (attempted : Option (List (String × String))) (message : String)
deriving Repr

/-- The inner `try` body (lines 73–100): resolve dynamic headers, fetch, and
classify the response, throwing `Client Error …` / `Server Error …` exactly
as the source formats them.  `attempted` records whether `fetch` was reached
and with which merged headers. -/
def innerAttempt (env : Env) (r : RequestPayload) : InnerResult :=
  match dynOf env with
  | Except.error m => InnerResult.thrown none m
  | Except.ok dyn =>
    let hdrs := mergedHeaders r.headers dyn
    match env.transport r with
    | FetchResult.throw m => InnerResult.thrown (some hdrs) m
    | FetchResult.resp resp =>
      if !resp.ok then
        if jsGE resp.status 400 && jsLT resp.status 500 then
          InnerResult.thrown (some hdrs)
            ("Client Error " ++ statusString resp.status ++ ": " ++
              resp.statusText)
        else
          InnerResult.thrown (some hdrs)
            ("Server Error " ++ statusString resp.status)
      else
        InnerResult.success hdrs

/-- The events emitted by the `fetch` call itself. -/
def attemptEvents (r : RequestPayload) :
    Option (List (String × String)) → List Event
  | none => []
  | some hdrs => [Event.attempt r hdrs]

/-- `processQueue` (lines 51–133), one invocation.

* Guard (line 52): no-op when already syncing or offline.
* Set `isSyncing`, notify (lines 54–55).
* Empty queue (lines 60–64): release guard, notify, return — the `finally`
  block then notifies a second time.
* Otherwise run the inner try on the head and dispatch the catch block
  (lines 112–127): a thrown message containing `"Client Error"` invokes
  `onError`, pops the head and recurses (lines 115–122); any other thrown
  message calls `handleRetry` *without awaiting it* (line 125), so the
  `finally` notification (with `isSyncing` still `true`) precedes
  `handleRetry`'s effects.
* On success (lines 102–111): invoke `onSuccess`, pop the head, recurse.

The recursive calls on lines 111 and 122 are made while `this.isSyncing` is
still `true`; the model keeps them exactly as the source does. -/
def processQueueAux (env : Env) (onLine : Bool) :
    Bool → List RequestPayload → EngineState × List Event
  | isSyncing, q =>
    if isSyncing || !onLine then
      (⟨isSyncing, onLine, q⟩, [])
    else
      match q with
      | [] =>
        (⟨false, onLine, []⟩,
         [Event.notify true, Event.notify false, Event.notify false])
      | r :: rest =>
        match innerAttempt env r with
        | InnerResult.success hdrs =>
          let next := processQueueAux env onLine true rest
          (next.1,
           Event.notify true :: Event.attempt r hdrs :: Event.onSuccess r ::
             (next.2 ++ [Event.notify next.1.isSyncing]))
        | InnerResult.thrown att m =>
          if strIncludes m "Client Error" then
            let next := processQueueAux env onLine true rest
            (next.1,
             (Event.notify true :: attemptEvents r att) ++
               (Event.onError r :: (next.2 ++ [Event.notify next.1.isSyncing])))
          else
            let ret := handleRetry r ⟨true, onLine, q⟩
            (ret.1,
             (Event.notify true :: attemptEvents r att) ++
               (Event.notify true :: ret.2))

/-- One invocation of `processQueue` on the engine state. -/
def processQueue (env : Env) (s : EngineState) : EngineState × List Event :=
  processQueueAux env s.onLine s.isSyncing s.queue

/-- `mkPayload` builds the `RequestPayload` literal of `addRequest`
(lines 30–35): spread the caller's fields, assign a fresh `id` and
`timestamp`, start `retryCount` at `0`. -/
def mkPayload (n : NewRequest) (id : String) (now : Nat) : RequestPayload :=
  { id := id, url := n.url, method := n.method, body := n.body,
    headers := n.headers, timestamp := now, retryCount := 0 }

/-- `addRequest` (lines 27–46): append the payload to the persisted queue
(read-modify-write, missing record defaults to `[]`), then trigger a drain
pass only when `navigator.onLine`. -/
def addRequest (env : Env) (id : String) (now : Nat) (n : NewRequest)
    (s : EngineState) : EngineState × List Event :=
  let s1 : EngineState := { s with queue := s.queue ++ [mkPayload n id now] }
  if s1.onLine then processQueue env s1 else (s1, [])

/-- A finite sequence of `addRequest` calls, each with its fresh
`(id, timestamp)` pair, run to completion in order. -/
def enqueueAll (env : Env) (items : List (String × Nat × NewRequest))
    (s : EngineState) : EngineState × List Event :=
  match items with
  | [] => (s, [])
  | (id, now, n) :: rest =>
    let step := addRequest env id now n s
    let further := enqueueAll env rest step.1
    (further.1, step.2 ++ further.2)

/-! ## Concrete fixtures used by closed theorems and witnesses -/

/-- A first queued mutation. -/
def reqA : RequestPayload :=
  { id := "id-a", url := "/api/1", method := "POST", body := "{}",
    headers := [], timestamp := 0, retryCount := 0 }

/-- A second queued mutation, enqueued after `reqA`. -/
def reqB : RequestPayload :=
  { id := "id-b", url := "/api/2", method := "POST", body := "{}",
    headers := [], timestamp := 5, retryCount := 0 }

/-- Transport that answers every request with HTTP 200 / `ok`. -/
def envAllOk : Env :=
  { prepare := none,
    transport := fun _ => FetchResult.resp { ok := true, status := some 200, statusText := "OK" } }

/-- Transport that answers every request with HTTP 404. -/
def envHttp404 : Env :=
  { prepare := none,
    transport := fun _ =>
      FetchResult.resp { ok := false, status := some 404, statusText := "Not Found" } }

/-- Transport that answers every request with HTTP 500. -/
def envHttp500 : Env :=
  { prepare := none,
    transport := fun _ =>
      FetchResult.resp { ok := false, status := some 500, statusText := "Internal Server Error" } }

/-- Transport whose failing response carries no `status` field, like the
repository's own test mock `{ ok: false, statusText: "Internal Server Error" }`. -/
def envNoStatus : Env :=
  { prepare := none,
    transport := fun _ =>
      FetchResult.resp { ok := false, status := none, statusText := "Internal Server Error" } }

/-- `prepareHeaders` rejects with an error whose message happens to contain
the substring `"Client Error"`. -/
def envPrepClientMsg : Env :=
  { prepare := some (Except.error "Client Error: token refresh failed"),
    transport := fun _ => FetchResult.resp { ok := true, status := some 200, statusText := "OK" } }

/-- `prepareHeaders` rejects with an ordinary error message. -/
def envPrepBoom : Env :=
  { prepare := some (Except.error "boom"),
    transport := fun _ => FetchResult.resp { ok := true, status := some 200, statusText := "OK" } }

/-- Recognizer for delivery-attempt events. -/
def isAttemptEvent : Event → Bool
  | Event.attempt _ _ => true
  | _ => false

/-- Recognizer for `onError` events. -/
def isOnErrorEvent : Event → Bool
  | Event.onError _ => true
  | _ => false

/-! ## Helper lemmas -/

theorem processQueueAux_syncing (env : Env) (ol : Bool) (q : List RequestPayload) :
    processQueueAux env ol true q = (⟨true, ol, q⟩, []) := by
  cases q <;> rfl

/-- Branch-by-branch characterization of one `processQueue` invocation. -/
theorem processQueue_shape (env : Env) (s : EngineState) :
    ((s.isSyncing = true ∨ s.onLine = false) ∧ processQueue env s = (s, [])) ∨
    (s.isSyncing = false ∧ s.onLine = true ∧
      ((s.queue = [] ∧ processQueue env s =
          (⟨false, true, []⟩,
           [Event.notify true, Event.notify false, Event.notify false])) ∨
       (∃ r rest, s.queue = r :: rest ∧
         ((∃ hdrs, innerAttempt env r = InnerResult.success hdrs ∧
             processQueue env s = (⟨true, true, rest⟩,
               [Event.notify true, Event.attempt r hdrs, Event.onSuccess r,
                Event.notify true])) ∨
          (∃ att m, innerAttempt env r = InnerResult.thrown att m ∧
             strIncludes m "Client Error" = true ∧
             processQueue env s = (⟨true, true, rest⟩,
               (Event.notify true :: attemptEvents r att) ++
                 [Event.onError r, Event.notify true])) ∨
          (∃ att m, innerAttempt env r = InnerResult.thrown att m ∧
             strIncludes m "Client Error" = false ∧
             processQueue env s = (⟨false, true, retryUpdate r (r :: rest)⟩,
               (Event.notify true :: attemptEvents r att) ++
                 [Event.notify true, Event.notify false,
                  Event.scheduleRetry (backoffDelay r)])))))) := by
  obtain ⟨sy, ol, q⟩ := s
  cases sy with
  | true => exact Or.inl ⟨Or.inl rfl, by cases q <;> rfl⟩
  | false =>
    cases ol with
    | false => exact Or.inl ⟨Or.inr rfl, by cases q <;> rfl⟩
    | true =>
      refine Or.inr ⟨rfl, rfl, ?_⟩
      cases q with
      | nil => exact Or.inl ⟨rfl, rfl⟩
      | cons r rest =>
        refine Or.inr ⟨r, rest, rfl, ?_⟩
        cases hi : innerAttempt env r with
        | success hdrs =>
          refine Or.inl ⟨hdrs, rfl, ?_⟩
          simp [processQueue, processQueueAux, hi, processQueueAux_syncing]
        | thrown att m =>
          cases hm : strIncludes m "Client Error" with
          | true =>
            refine Or.inr (Or.inl ⟨att, m, rfl, hm, ?_⟩)
            simp [processQueue, processQueueAux, hi, hm, processQueueAux_syncing]
          | false =>
            refine Or.inr (Or.inr ⟨att, m, rfl, hm, ?_⟩)
            simp [processQueue, processQueueAux, hi, hm, handleRetry]

/-- If the inner try block succeeded, the fetch used the three-way header
merge on the dynamic headers produced by `prepareHeaders`. -/
theorem innerAttempt_success_inv (env : Env) (r : RequestPayload)
    (hdrs : List (String × String))
    (h : innerAttempt env r = InnerResult.success hdrs) :
    ∃ dyn, dynOf env = Except.ok dyn ∧ hdrs = mergedHeaders r.headers dyn := by
  unfold innerAttempt at h
  cases hd : dynOf env with
  | error m => simp only [hd] at h; exact InnerResult.noConfusion h
  | ok dyn =>
    simp only [hd] at h
    refine ⟨dyn, rfl, ?_⟩
    cases ht : env.transport r with
    | throw m => simp only [ht] at h; exact InnerResult.noConfusion h
    | resp resp =>
      simp only [ht] at h
      split at h
      · split at h <;> exact InnerResult.noConfusion h
      · cases h; rfl

/-- If the inner try block threw after reaching `fetch`, the attempted fetch
used the three-way header merge on the produced dynamic headers. -/
theorem innerAttempt_thrown_some_inv (env : Env) (r : RequestPayload)
    (hdrs : List (String × String)) (m : String)
    (h : innerAttempt env r = InnerResult.thrown (some hdrs) m) :
    ∃ dyn, dynOf env = Except.ok dyn ∧ hdrs = mergedHeaders r.headers dyn := by
  unfold innerAttempt at h
  cases hd : dynOf env with
  | error m0 => simp only [hd] at h; simp at h
  | ok dyn =>
    simp only [hd] at h
    refine ⟨dyn, rfl, ?_⟩
    cases ht : env.transport r with
    | throw m0 => simp only [ht] at h; cases h; rfl
    | resp resp =>
      simp only [ht] at h
      split at h
      · split at h <;> (cases h; rfl)
      · exact InnerResult.noConfusion h

/-- Every delivery attempt in a `processQueue` invocation targets the item at
index 0 of the persisted queue as loaded by that invocation, and carries the
merged headers built from that item and the resolved dynamic headers. -/
theorem attempt_mem_inv (env : Env) (s : EngineState) (r : RequestPayload)
    (hs : List (String × String))
    (h : Event.attempt r hs ∈ (processQueue env s).2) :
    (∃ rest, s.queue = r :: rest) ∧
      ∃ dyn, dynOf env = Except.ok dyn ∧ hs = mergedHeaders r.headers dyn := by
  rcases processQueue_shape env s with ⟨_, heq⟩ | ⟨_, _, hc⟩
  · rw [heq] at h; simp at h
  · rcases hc with ⟨_, heq⟩ | ⟨r0, rest, hq, hbr⟩
    · rw [heq] at h; simp at h
    · rcases hbr with ⟨hdrs, hi, heq⟩ | ⟨att, m, hi, _, heq⟩ | ⟨att, m, hi, _, heq⟩ <;>
        rw [heq] at h
      · simp at h
        obtain ⟨hr, hh⟩ := h
        subst hr; subst hh
        exact ⟨⟨rest, hq⟩, innerAttempt_success_inv env _ _ hi⟩
      · cases att with
        | none => simp [attemptEvents] at h
        | some hd2 =>
          simp [attemptEvents] at h
          obtain ⟨hr, hh⟩ := h
          subst hr; subst hh
          exact ⟨⟨rest, hq⟩, innerAttempt_thrown_some_inv env _ _ m hi⟩
      · cases att with
        | none => simp [attemptEvents] at h
        | some hd2 =>
          simp [attemptEvents] at h
          obtain ⟨hr, hh⟩ := h
          subst hr; subst hh
          exact ⟨⟨rest, hq⟩, innerAttempt_thrown_some_inv env _ _ m hi⟩

/-- Every scheduled backoff in a `processQueue` invocation is for the head
item of the queue as loaded by that invocation, with the engine's delay. -/
theorem schedule_mem_inv (env : Env) (s : EngineState) (d : Nat)
    (h : Event.scheduleRetry d ∈ (processQueue env s).2) :
    ∃ r rest, s.queue = r :: rest ∧ d = backoffDelay r := by
  rcases processQueue_shape env s with ⟨_, heq⟩ | ⟨_, _, hc⟩
  · rw [heq] at h; simp at h
  · rcases hc with ⟨_, heq⟩ | ⟨r0, rest, hq, hbr⟩
    · rw [heq] at h; simp at h
    · rcases hbr with ⟨hdrs, _, heq⟩ | ⟨att, m, _, _, heq⟩ | ⟨att, m, _, _, heq⟩ <;>
        rw [heq] at h
      · simp at h
      · cases att <;> simp [attemptEvents] at h
      · cases att <;> simp [attemptEvents] at h <;> exact ⟨r0, rest, hq, h⟩

/-- Evaluation of a retry-class pass: the head is retained with its
`retryCount` bumped, the guard is released, and a backoff re-drain is
scheduled; no `onError` is reported. -/
theorem processQueue_retry (env : Env) (p : RequestPayload)
    (rest : List RequestPayload) (att : Option (List (String × String)))
    (m : String)
    (hi : innerAttempt env p = InnerResult.thrown att m)
    (hm : strIncludes m "Client Error" = false) :
    processQueue env ⟨false, true, p :: rest⟩ =
      (⟨false, true, { p with retryCount := p.retryCount + 1 } :: rest⟩,
       (Event.notify true :: attemptEvents p att) ++
         [Event.notify true, Event.notify false,
          Event.scheduleRetry (backoffDelay p)]) := by
  simp [processQueue, processQueueAux, hi, hm, handleRetry, retryUpdate]

/-- A contiguous occurrence of a nonempty pattern puts the pattern's first
character into the text. -/
theorem listIncludes_head_mem (c : Char) (t hay : List Char)
    (h : listIncludes (c :: t) hay = true) : c ∈ hay := by
  induction hay with
  | nil => simp [listIncludes] at h
  | cons d rest ih =>
    rw [listIncludes] at h
    rcases Bool.or_eq_true_iff.mp h with hp | hr
    · rw [List.isPrefixOf_cons₂] at hp
      obtain ⟨hcd, _⟩ := Bool.and_eq_true_iff.mp hp
      exact (beq_iff_eq.mp hcd) ▸ List.mem_cons_self d rest
    · exact List.mem_cons_of_mem d (ih hr)

/-- Decimal digit characters produced by `Nat.digitChar` on `k % 10` are
never the letter `C`. -/
theorem digitChar_mod_ten_ne_C (k : Nat) : Nat.digitChar (k % 10) ≠ 'C' := by
  have hk : k % 10 < 10 := Nat.mod_lt k (by norm_num)
  interval_cases h : k % 10 <;> decide

/-- Every character that `Nat.toDigitsCore` emits beyond the accumulator is
a `digitChar` of some remainder mod 10. -/
theorem toDigitsCore_chars (fuel : Nat) :
    ∀ (n : Nat) (ds : List Char) (c : Char),
      c ∈ Nat.toDigitsCore 10 fuel n ds →
      c ∈ ds ∨ ∃ m, c = Nat.digitChar (m % 10) := by
  induction fuel with
  | zero => intro n ds c hc; rw [Nat.toDigitsCore] at hc; exact Or.inl hc
  | succ fuel ih =>
    intro n ds c hc
    rw [Nat.toDigitsCore] at hc
    by_cases h10 : n / 10 = 0
    · simp only [h10, if_pos] at hc
      rcases List.mem_cons.mp hc with hc | hc
      · exact Or.inr ⟨n, hc⟩
      · exact Or.inl hc
    · simp only [h10, if_neg, not_false_iff] at hc
      rcases ih (n / 10) (Nat.digitChar (n % 10) :: ds) c hc with hc2 | hc2
      · rcases List.mem_cons.mp hc2 with hc3 | hc3
        · exact Or.inr ⟨n, hc3⟩
        · exact Or.inl hc3
      · exact Or.inr hc2

/-- The decimal representation of a natural number contains no letter `C`. -/
theorem repr_no_C (n : Nat) : 'C' ∉ (Nat.repr n).data := by
  intro hmem
  have hdata : (Nat.repr n).data = Nat.toDigitsCore 10 (n + 1) n [] := rfl
  rw [hdata] at hmem
  rcases toDigitsCore_chars (n + 1) n [] 'C' hmem with h | ⟨m, hm⟩
  · exact List.not_mem_nil 'C' h
  · exact digitChar_mod_ten_ne_C m hm.symm

/-- The `Server Error …` messages thrown by the engine never contain the
substring `"Client Error"`, for any (possibly absent) HTTP status. -/
theorem serverMsg_not_client (st : Option Nat) :
    strIncludes ("Server Error " ++ statusString st) "Client Error" = false := by
  rw [Bool.eq_false_iff]
  intro h
  have hC : 'C' ∈ ("Server Error " ++ statusString st).data := by
    have hdat : ("Client Error").data = 'C' :: "lient Error".data := rfl
    exact listIncludes_head_mem 'C' _ _ (by rw [strIncludes, hdat] at h; exact h)
  rw [String.data_append] at hC
  rcases List.mem_append.mp hC with h1 | h2
  · exact absurd h1 (by decide)
  · cases st with
    | none => exact absurd h2 (by decide)
    | some n => exact repr_no_C n h2

/-- Looking a key up in the concatenation of two JS-style key/value lists
finds the later list's binding first. -/
theorem jsLookup_append (a b : List (String × String)) (k : String) :
    jsLookup (a ++ b) k = (jsLookup b k).orElse (fun _ => jsLookup a k) := by
  induction a with
  | nil => cases h : jsLookup b k <;> simp [jsLookup, Option.orElse, h]
  | cons hd tl ih =>
    obtain ⟨k2, v⟩ := hd
    cases h : jsLookup b k <;> cases h2 : jsLookup tl k <;>
      simp [jsLookup, Option.orElse, ih, h, h2]

/-! ## Claims -/

/-- C1: the claim says an all-success drain pass delivers every queued item
once, in order, and empties the persisted queue.  The code violates this:
starting online with queue `[reqA, reqB]` and a transport that answers
HTTP 200 to everything, the pass makes exactly one delivery attempt,
invokes `onSuccess` for `reqA` only, leaves `reqB` in the persisted queue,
and exits with `isSyncing` still `true` — the recursive `processQueue()`
continuation is blocked by the still-set `isSyncing` guard. -/
theorem allSuccess_pass_stops_after_head :
    (processQueue envAllOk ⟨false, true, [reqA, reqB]⟩).1.queue = [reqB] ∧
    List.countP isAttemptEvent
      (processQueue envAllOk ⟨false, true, [reqA, reqB]⟩).2 = 1 ∧
    Event.onSuccess reqA ∈ (processQueue envAllOk ⟨false, true, [reqA, reqB]⟩).2 ∧
    Event.onSuccess reqB ∉ (processQueue envAllOk ⟨false, true, [reqA, reqB]⟩).2 ∧
    (processQueue envAllOk ⟨false, true, [reqA, reqB]⟩).1.isSyncing = true := by
  decide

/-- C2: the claim says observers receive `isSyncing=false` once a drain pass
terminates, so `isSyncing` is never left `true`.  The code violates this for
a pass that ends through the success path: with queue `[reqA]` and a
successful delivery, observers receive `true` at the start and `true` again
from the `finally` block, never `false`, and the engine exits the pass with
`isSyncing` permanently `true`. -/
theorem success_pass_never_notifies_false :
    Event.notify true ∈ (processQueue envAllOk ⟨false, true, [reqA]⟩).2 ∧
    Event.notify false ∉ (processQueue envAllOk ⟨false, true, [reqA]⟩).2 ∧
    (processQueue envAllOk ⟨false, true, [reqA]⟩).1.queue = [] ∧
    (processQueue envAllOk ⟨false, true, [reqA]⟩).1.isSyncing = true := by
  decide

/-- C3: every finite sequence of `addRequest` calls made while offline
appends exactly the submitted payloads to the persisted queue in submission
order, each with the freshly assigned `id` and `timestamp` and with
`retryCount = 0`, and produces no events at all — in particular zero
delivery attempts. -/
theorem offline_enqueue_appends_in_order (env : Env)
    (items : List (String × Nat × NewRequest)) (s : EngineState)
    (h : s.onLine = false) :
    (enqueueAll env items s).1.queue =
      s.queue ++ items.map (fun it => mkPayload it.2.2 it.1 it.2.1) ∧
    (enqueueAll env items s).2 = [] ∧
    ∀ it ∈ items,
      (mkPayload it.2.2 it.1 it.2.1).id = it.1 ∧
      (mkPayload it.2.2 it.1 it.2.1).timestamp = it.2.1 ∧
      (mkPayload it.2.2 it.1 it.2.1).retryCount = 0 := by
  induction items generalizing s with
  | nil => simp [enqueueAll]
  | cons it rest ih =>
    obtain ⟨id, now, n⟩ := it
    have hstep : addRequest env id now n s =
        ({ s with queue := s.queue ++ [mkPayload n id now] }, []) := by
      simp [addRequest, h]
    obtain ⟨ihq, ihe, ihm⟩ :=
      ih { s with queue := s.queue ++ [mkPayload n id now] } (by simp [h])
    refine ⟨?_, ?_, ?_⟩
    · simp [enqueueAll, hstep, ihq]
    · simp [enqueueAll, hstep, ihe]
    · intro it2 hit2
      rcases List.mem_cons.mp hit2 with h2 | h2
      · subst h2; exact ⟨rfl, rfl, rfl⟩
      · exact ihm it2 h2

/-- Two enqueue calls with fresh ids and timestamps, used as witness data. -/
def demoItems : List (String × Nat × NewRequest) :=
  [("id-a", 0, ⟨"/api/1", "POST", "{}", []⟩),
   ("id-b", 5, ⟨"/api/2", "POST", "{}", []⟩)]

theorem offline_enqueue_appends_in_order_witness :
    (⟨false, false, []⟩ : EngineState).onLine = false ∧
    (enqueueAll envAllOk demoItems ⟨false, false, []⟩).2 = [] :=
  ⟨rfl,
   (offline_enqueue_appends_in_order envAllOk demoItems ⟨false, false, []⟩ rfl).2.1⟩

/-- C4: every backoff scheduled by the engine is for the head item of the
loaded queue and waits `min(1000 * 2 ^ (retryCount + 1), 30000)` ms, where
`retryCount` is the item's pre-attempt count — so a first retry waits
2000 ms, delays are monotone in the count, and never exceed 30000 ms. -/
theorem backoff_delay_formula :
    (∀ env s d, Event.scheduleRetry d ∈ (processQueue env s).2 →
      ∃ r rest, s.queue = r :: rest ∧
        d = min (1000 * 2 ^ (r.retryCount + 1)) 30000) ∧
    (∀ r : RequestPayload, r.retryCount = 0 → backoffDelay r = 2000) ∧
    (∀ r r2 : RequestPayload, r.retryCount ≤ r2.retryCount →
      backoffDelay r ≤ backoffDelay r2) ∧
    (∀ r : RequestPayload, backoffDelay r ≤ 30000) := by
  refine ⟨?_, ?_, ?_, ?_⟩
  · intro env s d h
    obtain ⟨r, rest, hq, hd⟩ := schedule_mem_inv env s d h
    exact ⟨r, rest, hq, hd⟩
  · intro r h
    simp only [backoffDelay, h]
    decide
  · intro r r2 h
    have h2 : 2 ^ (r.retryCount + 1) ≤ 2 ^ (r2.retryCount + 1) :=
      Nat.pow_le_pow_right (by norm_num) (by omega)
    simp only [backoffDelay]
    exact min_le_min (Nat.mul_le_mul_left 1000 h2) le_rfl
  · intro r
    simp only [backoffDelay]
    exact min_le_right _ _

theorem backoff_delay_formula_witness :
    Event.scheduleRetry 2000 ∈ (processQueue envHttp500 ⟨false, true, [reqA]⟩).2 ∧
    ∃ r rest, (⟨false, true, [reqA]⟩ : EngineState).queue = r :: rest ∧
      2000 = min (1000 * 2 ^ (r.retryCount + 1)) 30000 :=
  ⟨by decide,
   backoff_delay_formula.1 envHttp500 ⟨false, true, [reqA]⟩ 2000 (by decide)⟩

/-- C5: the claim says a 4xx outcome invokes `onError` once, permanently
drops the item, and the next queued item is attempted immediately in the
same pass.  The code performs the drop and the single `onError`, but
violates the continuation: with `[reqA, reqB]` and a transport answering
HTTP 404, only one attempt event occurs — `reqB` is never attempted because
the recursive `processQueue()` call is blocked by the `isSyncing` guard —
and the pass ends with `reqB` still queued and `isSyncing` stuck `true`. -/
theorem clientError_drop_no_continuation :
    (processQueue envHttp404 ⟨false, true, [reqA, reqB]⟩).1.queue = [reqB] ∧
    List.countP isOnErrorEvent
      (processQueue envHttp404 ⟨false, true, [reqA, reqB]⟩).2 = 1 ∧
    Event.onError reqA ∈ (processQueue envHttp404 ⟨false, true, [reqA, reqB]⟩).2 ∧
    List.countP isAttemptEvent
      (processQueue envHttp404 ⟨false, true, [reqA, reqB]⟩).2 = 1 ∧
    Event.attempt reqA [("Content-Type", "application/json")] ∈
      (processQueue envHttp404 ⟨false, true, [reqA, reqB]⟩).2 ∧
    (processQueue envHttp404 ⟨false, true, [reqA, reqB]⟩).1.isSyncing = true := by
  decide

/-- C6: the persisted retry increment written by `handleRetry` goes through
`retryUpdate`, which bumps the head's `retryCount` only when the head's `id`
equals the attempted item's `id`; an empty queue or a mismatched head id
leaves the stored queue unchanged, and no other item is ever modified. -/
theorem retry_increment_id_guard :
    (∀ req s, (handleRetry req s).1.queue = retryUpdate req s.queue) ∧
    (∀ req, retryUpdate req [] = []) ∧
    (∀ (req head : RequestPayload) (rest : List RequestPayload),
      head.id = req.id →
      retryUpdate req (head :: rest) =
        { head with retryCount := head.retryCount + 1 } :: rest) ∧
    (∀ (req head : RequestPayload) (rest : List RequestPayload),
      head.id ≠ req.id →
      retryUpdate req (head :: rest) = head :: rest) := by
  refine ⟨fun _ _ => rfl, fun _ => rfl, ?_, ?_⟩
  · intro req head rest h
    simp [retryUpdate, h]
  · intro req head rest h
    simp [retryUpdate, h]

theorem retry_increment_id_guard_witness :
    reqB.id ≠ reqA.id ∧ retryUpdate reqA [reqB] = [reqB] :=
  ⟨by decide, retry_increment_id_guard.2.2.2 reqA reqB [] (by decide)⟩

/-- C7: the headers sent on every delivery attempt are the JS spread merge
of the default content-type, then the item's static headers, then the
dynamic headers from `prepareHeaders` (empty when not configured), with
later operands winning on key conflicts. -/
theorem header_merge_precedence :
    (∀ (staticHeaders dynamicHeaders : List (String × String)) (k : String),
      jsLookup (mergedHeaders staticHeaders dynamicHeaders) k =
        ((jsLookup dynamicHeaders k).orElse (fun _ =>
          (jsLookup staticHeaders k).orElse (fun _ =>
            jsLookup defaultHeaders k)))) ∧
    (∀ t, dynOf { prepare := none, transport := t } = Except.ok []) ∧
    (∀ env s r hs, Event.attempt r hs ∈ (processQueue env s).2 →
      ∃ dyn, dynOf env = Except.ok dyn ∧ hs = mergedHeaders r.headers dyn) := by
  refine ⟨?_, fun _ => rfl, ?_⟩
  · intro st dyn k
    simp [mergedHeaders, jsLookup_append]
    cases jsLookup dyn k <;> cases jsLookup st k <;> simp [Option.orElse]
  · intro env s r hs h
    exact (attempt_mem_inv env s r hs h).2

theorem header_merge_precedence_witness :
    Event.attempt reqA [("Content-Type", "application/json")] ∈
      (processQueue envAllOk ⟨false, true, [reqA]⟩).2 ∧
    ∃ dyn, dynOf envAllOk = Except.ok dyn ∧
      [("Content-Type", "application/json")] = mergedHeaders reqA.headers dyn :=
  ⟨by decide,
   header_merge_precedence.2.2 envAllOk ⟨false, true, [reqA]⟩ reqA
     [("Content-Type", "application/json")] (by decide)⟩

/-- C8 (counterexample): the claim says every `prepareHeaders` failure is
treated as retry-class, never dropped and never reported through `onError`.
The code classifies thrown errors by sniffing the message for the substring
`"Client Error"`: when `prepareHeaders` rejects with the message
`"Client Error: token refresh failed"`, the engine invokes `onError`,
permanently drops the item, and schedules no retry. -/
theorem header_failure_client_message_drops :
    (processQueue envPrepClientMsg ⟨false, true, [reqA]⟩).1.queue = [] ∧
    Event.onError reqA ∈ (processQueue envPrepClientMsg ⟨false, true, [reqA]⟩).2 ∧
    Event.scheduleRetry (backoffDelay reqA) ∉
      (processQueue envPrepClientMsg ⟨false, true, [reqA]⟩).2 := by
  decide

/-- C8 (amended): every `prepareHeaders` failure whose error message does
not contain the substring `"Client Error"` is treated as a retry-class
outcome on the same item: the item is retained at the head with its
`retryCount` bumped, a backoff retry is scheduled, and `onError` is never
invoked. -/
theorem header_failure_retry_class (env : Env) (s : EngineState)
    (p : RequestPayload) (rest : List RequestPayload) (m : String)
    (h1 : s.isSyncing = false) (h2 : s.onLine = true)
    (h3 : s.queue = p :: rest)
    (h4 : env.prepare = some (Except.error m))
    (h5 : strIncludes m "Client Error" = false) :
    (processQueue env s).1.queue =
      { p with retryCount := p.retryCount + 1 } :: rest ∧
    (∀ q, Event.onError q ∉ (processQueue env s).2) ∧
    Event.scheduleRetry (backoffDelay p) ∈ (processQueue env s).2 := by
  obtain ⟨sy, ol, qu⟩ := s
  simp only at h1 h2 h3
  subst h1; subst h2; subst h3
  have hi : innerAttempt env p = InnerResult.thrown none m := by
    simp [innerAttempt, dynOf, h4]
  rw [processQueue_retry env p rest none m hi h5]
  refine ⟨rfl, ?_, ?_⟩
  · intro q; simp [attemptEvents]
  · simp [attemptEvents]

theorem header_failure_retry_class_witness :
    strIncludes "boom" "Client Error" = false ∧
    Event.scheduleRetry (backoffDelay reqA) ∈
      (processQueue envPrepBoom ⟨false, true, [reqA]⟩).2 :=
  ⟨by decide,
   (header_failure_retry_class envPrepBoom ⟨false, true, [reqA]⟩ reqA [] "boom"
      rfl rfl rfl rfl (by decide)).2.2⟩

/-- C9: only the item at index 0 of the persisted queue is ever submitted to
the network: every attempt event of a `processQueue` invocation targets the
head of the queue that invocation loaded, and an attempt triggered through
`addRequest` targets the head of the queue after the append — so a
later-enqueued item is never attempted while an earlier one occupies the
head. -/
theorem attempts_target_queue_head :
    (∀ env s r hs, Event.attempt r hs ∈ (processQueue env s).2 →
      ∃ rest, s.queue = r :: rest) ∧
    (∀ env id now n s r hs,
      Event.attempt r hs ∈ (addRequest env id now n s).2 →
      ∃ rest, s.queue ++ [mkPayload n id now] = r :: rest) := by
  constructor
  · intro env s r hs h
    exact (attempt_mem_inv env s r hs h).1
  · intro env id now n s r hs h
    simp only [addRequest] at h
    split at h
    · have h2 := (attempt_mem_inv env _ r hs h).1
      simpa using h2
    · simp at h

theorem attempts_target_queue_head_witness :
    Event.attempt reqA [("Content-Type", "application/json")] ∈
      (processQueue envAllOk ⟨false, true, [reqA, reqB]⟩).2 ∧
    ∃ rest, (⟨false, true, [reqA, reqB]⟩ : EngineState).queue = reqA :: rest :=
  ⟨by decide,
   attempts_target_queue_head.1 envAllOk ⟨false, true, [reqA, reqB]⟩ reqA
     [("Content-Type", "application/json")] (by decide)⟩

/-- C10: a delivery attempt whose response has `ok = false` but whose HTTP
status is not in 400–499 (a 3xx status, a 5xx status, or a response with no
status field) is classified as retry-class: the item stays at the head with
its `retryCount` bumped, a backoff retry is scheduled, and `onError` is
never invoked. -/
theorem non_4xx_failure_retry_class (env : Env) (s : EngineState)
    (p : RequestPayload) (rest : List RequestPayload)
    (dyn : List (String × String)) (resp : HttpResponse)
    (h1 : s.isSyncing = false) (h2 : s.onLine = true)
    (h3 : s.queue = p :: rest)
    (h4 : dynOf env = Except.ok dyn)
    (h5 : env.transport p = FetchResult.resp resp)
    (h6 : resp.ok = false)
    (h7 : ∀ n, resp.status = some n → ¬(400 ≤ n ∧ n < 500)) :
    (processQueue env s).1.queue =
      { p with retryCount := p.retryCount + 1 } :: rest ∧
    (∀ q, Event.onError q ∉ (processQueue env s).2) ∧
    Event.scheduleRetry (backoffDelay p) ∈ (processQueue env s).2 := by
  obtain ⟨sy, ol, qu⟩ := s
  simp only at h1 h2 h3
  subst h1; subst h2; subst h3
  have hcond : (jsGE resp.status 400 && jsLT resp.status 500) = false := by
    cases hst : resp.status with
    | none => rfl
    | some n =>
      have hn := h7 n hst
      simp only [jsGE, jsLT, Bool.and_eq_false_iff, decide_eq_false_iff_not,
        not_le, not_lt]
      omega
  have hi : innerAttempt env p =
      InnerResult.thrown (some (mergedHeaders p.headers dyn))
        ("Server Error " ++ statusString resp.status) := by
    simp [innerAttempt, h4, h5, h6, hcond]
  rw [processQueue_retry env p rest _ _ hi (serverMsg_not_client resp.status)]
  refine ⟨rfl, ?_, ?_⟩
  · intro q; simp [attemptEvents]
  · simp [attemptEvents]

theorem non_4xx_failure_retry_class_witness :
    (∀ n, (none : Option Nat) = some n → ¬(400 ≤ n ∧ n < 500)) ∧
    Event.scheduleRetry (backoffDelay reqA) ∈
      (processQueue envNoStatus ⟨false, true, [reqA]⟩).2 :=
  ⟨fun _ h => Option.noConfusion h,
   (non_4xx_failure_retry_class envNoStatus ⟨false, true, [reqA]⟩ reqA [] []
      ⟨false, none, "Internal Server Error"⟩ rfl rfl rfl rfl rfl rfl
      (fun _ h => Option.noConfusion h)).2.2⟩

end OfflineSync
